import Mathlib

/-!
# Verification of the registers patch engine

A shallow embedding of the register patch pipeline (`registers/commands/patch.py`)
together with the engine components it drives: the RSF command-log codec, the
tabular (XSV) deserialiser, the register replay engine, the patch builder and
the validator/applier.  The CLI module under verification is a thin shell over
these components; the components themselves are modelled from the system
specification, and the control flow of `create`, `apply` and `_apply` is
translated directly from the source.
-/

set_option maxRecDepth 4000

/- ## Character-level split and join

The log format is line oriented and fields within a line are tab separated.
We implement the splitting used by the codec and the deserialiser directly on
character lists so that its algebra is fully transparent. -/

/-- Auxiliary splitter: returns the part before the first separator and the
remaining parts. -/
def splitAux (sep : Char) : List Char → List Char × List (List Char)
  | [] => ([], [])
  | c :: cs =>
    let r := splitAux sep cs
    if c = sep then ([], r.1 :: r.2) else (c :: r.1, r.2)

/-- Split a character list on a separator; inverse of `joinWithChar` on
separator-free parts. -/
def splitOnChar (sep : Char) (l : List Char) : List (List Char) :=
  (splitAux sep l).1 :: (splitAux sep l).2

/-- Join parts with a separator character. -/
def joinWithChar (sep : Char) : List (List Char) → List Char
  | [] => []
  | [f] => f
  | f :: rest => f ++ sep :: joinWithChar sep rest

/- ## Commands and the RSF codec

Per the data model, a command is an atomic instruction: an operation kind and
a fixed-arity ordered list of string fields.  Modelled from the spec: the
codec module (`registers.rsf`) is not part of the excerpted source; §4.1 fixes
its contract (one command per line, tab-separated fields, fixed arity per
operation, `FormatError` on malformed lines). -/

/-- An atomic command: operation kind plus ordered string fields. -/
structure Command where
  op : String
  fields : List String
deriving DecidableEq

/-- Modelled from the spec: fixed arity of each known operation (§3, §4.1,
§4.2); `none` marks an unknown operation. -/
def arityOf (op : String) : Option Nat :=
  if op = "register" then some 2
  else if op = "add-field" then some 3
  else if op = "custom-field" then some 1
  else if op = "assert-root-hash" then some 1
  else if op = "add-item" then some 1
  else if op = "append-entry" then some 3
  else none

/-- Parse failure for the log codec (§4.1). -/
inductive FormatError
  | malformed (line : String)
deriving DecidableEq

/-- Modelled from the spec: serialise one command as a tab-separated line
(§4.1), operation first, fields in order. -/
def serializeCommand (c : Command) : String :=
  ⟨joinWithChar '\t' ((c.op :: c.fields).map String.data)⟩

/-- Modelled from the spec: serialise a command list, one command per line,
each line terminated by a newline (§4.1, §4.7). -/
def rsfSerialise (cmds : List Command) : String :=
  ⟨(cmds.map (fun c => (serializeCommand c).data ++ ['\n'])).flatten⟩

/-- Modelled from the spec: parse one log line into a command; fails on an
unknown operation or wrong field count (§4.1). -/
def parseLine (line : List Char) : Except FormatError Command :=
  match (splitOnChar '\t' line).map (fun l => (⟨l⟩ : String)) with
  | [] => .error (.malformed ⟨line⟩)
  | op :: fs =>
    if arityOf op = some fs.length then .ok ⟨op, fs⟩
    else .error (.malformed ⟨line⟩)

/-- Parse a list of lines, first failure wins (parse errors on the log are
fatal, §7). -/
def parseLines : List (List Char) → Except FormatError (List Command)
  | [] => .ok []
  | l :: ls =>
    match parseLine l with
    | .error e => .error e
    | .ok c =>
      match parseLines ls with
      | .error e => .error e
      | .ok cs => .ok (c :: cs)

/-- Modelled from the spec: parse a whole log file into its ordered command
sequence (`rsf.read`, §4.1): split into lines, ignore empty lines, parse each
line. -/
def rsfParse (content : String) : Except FormatError (List Command) :=
  parseLines ((splitOnChar '\n' content.data).filter (fun l => !l.isEmpty))

/-- A well-formed command: a known operation of matching arity whose fields
contain neither the field separator nor the line separator. -/
def Command.wff (c : Command) : Prop :=
  arityOf c.op = some c.fields.length ∧
    ∀ f ∈ c.fields, '\t' ∉ f.data ∧ '\n' ∉ f.data

instance (c : Command) : Decidable c.wff := by
  unfold Command.wff
  infer_instance

/- ## Schema, items, entries and the register

Modelled from the spec: the `Register`, `Schema`, `Item` and `Entry` types
(§3, §4.2, §4.4) live in modules that are not part of the excerpted source.
Schema-defining commands are `register` (register metadata and designated
primary key), `add-field` (name, datatype, cardinality) and `custom-field`. -/

/-- A field definition: name, datatype and cardinality (`"1"` or `"n"`). -/
structure FieldDef where
  name : String
  datatype : String
  card : String
deriving DecidableEq

/-- Modelled from the spec: the schema folded out of schema-defining
commands (§4.2): register metadata, designated primary key, ordered field
definitions, custom field list. -/
structure Schema where
  regName : Option String
  primaryKey : Option String
  fieldDefs : List FieldDef
  customFields : List String
deriving DecidableEq

/-- Modelled from the spec: a schema is ready once the register metadata is
present and the designated primary key is among the declared fields (§4.2). -/
def Schema.isReady (s : Schema) : Bool :=
  s.regName.isSome &&
    match s.primaryKey with
    | some pk => s.fieldDefs.any (fun f => f.name = pk)
    | none => false

/-- Look up a field definition by name. -/
def Schema.fieldDef (s : Schema) (name : String) : Option FieldDef :=
  s.fieldDefs.find? (fun f => f.name = name)

/-- An entry: the timestamp at which a key was last set and the hash of the
item holding its current value (§3). -/
structure Entry where
  timestamp : String
  itemHash : String
deriving DecidableEq

/-- Association-list lookup keyed by strings. -/
def lookupA {α : Type} : List (String × α) → String → Option α
  | [], _ => none
  | (k, v) :: rest, key => if k = key then some v else lookupA rest key

/-- Association-list insert-or-overwrite keyed by strings. -/
def insertA {α : Type} : List (String × α) → String → α → List (String × α)
  | [], key, v => [(key, v)]
  | (k, w) :: rest, key, v =>
    if k = key then (k, v) :: rest else (k, w) :: insertA rest key v

/-- Lexicographic strict comparison of character lists (by code point). -/
def lexLt : List Char → List Char → Bool
  | [], [] => false
  | [], _ :: _ => true
  | _ :: _, [] => false
  | a :: as, b :: bs =>
    if a.toNat < b.toNat then true
    else if b.toNat < a.toNat then false
    else lexLt as bs

/-- Lexicographic strict comparison of strings; on RFC3339 timestamps this
is exactly chronological order. -/
def strLt (a b : String) : Bool := lexLt a.data b.data

/-- Modelled from the spec: the register state materialised by replaying a
command log (§3): schema, entries, content-addressed item table, command
count. -/
structure Register where
  schema : Schema
  entries : List (String × Entry)
  items : List (String × String)
  commandCount : Nat
deriving DecidableEq

/-- The empty register, the starting point of every replay. -/
def Register.empty : Register := ⟨⟨none, none, [], []⟩, [], [], 0⟩

/-- Modelled from the spec: replay integrity failures (§4.4), wrapping the
offending command's position. -/
inductive ReplayError
  | schemaNotReady (pos : Nat)
  | duplicateItem (pos : Nat)
  | outOfOrder (pos : Nat)
  | unknownCommand (pos : Nat) (op : String)
deriving DecidableEq

/-- Modelled from the spec: the deterministic content hash of an item.  The
spec fixes only that identical field content must hash identically (§3); we
model the hash as the canonical serialisation itself, which is deterministic
and injective and therefore satisfies the content-addressing invariant. -/
def itemHash (canonical : String) : String := canonical

/-- An entry-affecting command (an `add-item` or `append-entry` of the
correct arity), which requires a ready schema before it may replay (§4.2). -/
def entryAffecting (c : Command) : Bool :=
  (c.op = "add-item" && c.fields.length = 1) ||
    (c.op = "append-entry" && c.fields.length = 3)

/-- Modelled from the spec: one step of the strict left fold that replays a
command into the register (§4.4): schema commands update the schema; item
commands insert into the item table (duplicate hash with different content
fails, identical content is an idempotent no-op); entry commands overwrite
only if the incoming timestamp is not earlier than the current one. -/
def step (r : Register) (c : Command) : Except ReplayError Register :=
  let pos := r.commandCount
  match c.op, c.fields with
  | "register", [name, pk] =>
    .ok { r with
      schema := { r.schema with regName := some name, primaryKey := some pk },
      commandCount := r.commandCount + 1 }
  | "add-field", [name, dt, card] =>
    .ok { r with
      schema := { r.schema with fieldDefs := r.schema.fieldDefs ++ [⟨name, dt, card⟩] },
      commandCount := r.commandCount + 1 }
  | "custom-field", [name] =>
    .ok { r with
      schema := { r.schema with customFields := r.schema.customFields ++ [name] },
      commandCount := r.commandCount + 1 }
  | "assert-root-hash", [_h] =>
    .ok { r with commandCount := r.commandCount + 1 }
  | "add-item", [canonical] =>
    if r.schema.isReady then
      match lookupA r.items (itemHash canonical) with
      | some existing =>
        if existing = canonical then .ok { r with commandCount := r.commandCount + 1 }
        else .error (.duplicateItem pos)
      | none =>
        .ok { r with
          items := r.items ++ [(itemHash canonical, canonical)],
          commandCount := r.commandCount + 1 }
    else .error (.schemaNotReady pos)
  | "append-entry", [key, ts, h] =>
    if r.schema.isReady then
      match lookupA r.entries key with
      | some e =>
        if strLt ts e.timestamp then .error (.outOfOrder pos)
        else .ok { r with
          entries := insertA r.entries key ⟨ts, h⟩,
          commandCount := r.commandCount + 1 }
      | none =>
        .ok { r with
          entries := insertA r.entries key ⟨ts, h⟩,
          commandCount := r.commandCount + 1 }
    else .error (.schemaNotReady pos)
  | op, _ => .error (.unknownCommand pos op)

/-- Replay a command sequence onto a register state by a strict left fold;
the first integrity failure aborts the replay (§4.4). -/
def replayFold (r : Register) : List Command → Except ReplayError Register
  | [] => .ok r
  | c :: cs =>
    match step r c with
    | .error e => .error e
    | .ok r' => replayFold r' cs

/-- Modelled from the spec: build the register from a command log, starting
from the empty state (`Register(cmds)`, §4.4). -/
def Register.build (cmds : List Command) : Except ReplayError Register :=
  replayFold Register.empty cmds

/-- Relational presentation of replay, used to state that replay is a
deterministic function of the command sequence (§8). -/
inductive ReplayRel : Register → List Command → Except ReplayError Register → Prop
  | done (r : Register) : ReplayRel r [] (.ok r)
  | stepOk {r r' : Register} {c : Command} {cs : List Command}
      {res : Except ReplayError Register} :
      step r c = .ok r' → ReplayRel r' cs res → ReplayRel r (c :: cs) res
  | stepFail {r : Register} {c : Command} {cs : List Command} {e : ReplayError} :
      step r c = .error e → ReplayRel r (c :: cs) (.error e)

/- ## Tabular (XSV) deserialiser

Modelled from the spec: the `registers.xsv` module is not part of the
excerpted source; §4.3 fixes its contract: delimiter auto-detection among
tab and comma by sampling the header line, `;` reserved as the intra-field
multi-value separator for cardinality-`n` fields, per-field datatype
coercion, row order preserved. -/

/-- A blob: ordered field name to ordered atomic values (§3, §4.3). -/
abbrev Blob := List (String × List String)

/-- A malformed-row failure of the tabular deserialiser (§4.3). -/
inductive RowError
  | arity (row : List String)
  | unknownField (name : String)
  | typeMismatch (field value datatype : String)
deriving DecidableEq

/-- Failure of the tabular deserialiser as a whole (§4.3). -/
inductive XsvError
  | emptyInput
  | badDelimiter
  | rows (errs : List RowError)
deriving DecidableEq

/-- Modelled from the spec: detect the column delimiter among tab and comma
by sampling the header line (§4.3); any other delimiter (such as the
reserved `;`) is rejected. -/
def detectDelim (header : List Char) : Except XsvError Char :=
  if '\t' ∈ header then .ok '\t'
  else if ',' ∈ header then .ok ','
  else .error .badDelimiter

/-- Modelled from the spec: coerce an atomic value to a declared datatype
(§4.3, §9); `integer` values must be all digits, `string` always succeeds. -/
def coerces (datatype : String) (v : String) : Bool :=
  if datatype = "integer" then !v.data.isEmpty && v.data.all Char.isDigit
  else true

/-- Modelled from the spec: convert one data row into a blob against the
header and the schema (§4.3): cells are matched with header columns, cells
of cardinality-`n` fields are split on `;`, values are coerced. -/
def rowFields (schema : Schema) : List String → List String → Except RowError Blob
  | [], [] => .ok []
  | name :: hs, cell :: cs =>
    match schema.fieldDef name with
    | none => .error (.unknownField name)
    | some fd =>
      let vals := if fd.card = "n"
        then (splitOnChar ';' cell.data).map (fun l => (⟨l⟩ : String))
        else [cell]
      if vals.all (fun v => coerces fd.datatype v) then
        match rowFields schema hs cs with
        | .ok rest => .ok ((name, vals) :: rest)
        | .error e => .error e
      else .error (.typeMismatch name cell fd.datatype)
  | hs, cs => .error (.arity (hs ++ cs))

/-- Collect per-row results: all row errors are reported as a batch rather
than aborting on the first bad row (§4.3). -/
def collectRows (rs : List (Except RowError Blob)) : Except XsvError (List Blob) :=
  let errs := rs.filterMap (fun r =>
    match r with
    | .error e => some e
    | .ok _ => none)
  if errs.isEmpty then
    .ok (rs.filterMap (fun r =>
      match r with
      | .ok b => some b
      | .error _ => none))
  else .error (.rows errs)

/-- Modelled from the spec: deserialise a tabular file against a schema
(`xsv.deserialise`, §4.3): split into lines, detect the delimiter from the
header, convert each data row in input order. -/
def deserialise (content : String) (schema : Schema) : Except XsvError (List Blob) :=
  match (splitOnChar '\n' content.data).filter (fun l => !l.isEmpty) with
  | [] => .error .emptyInput
  | headerLine :: rowLines =>
    match detectDelim headerLine with
    | .error e => .error e
    | .ok delim =>
      let header := (splitOnChar delim headerLine).map (fun l => (⟨l⟩ : String))
      collectRows (rowLines.map (fun rl =>
        rowFields schema header ((splitOnChar delim rl).map (fun l => (⟨l⟩ : String)))))

/- ## Canonical item serialisation and the patch builder -/

/-- Insert a named field into a name-sorted blob. -/
def insertByName (p : String × List String) : Blob → Blob
  | [] => [p]
  | q :: rest => if strLt p.1 q.1 then p :: q :: rest else q :: insertByName p rest

/-- Sort a blob by field name, so that the canonical serialisation is
independent of field ordering (content addressing, §3, §8). -/
def sortBlob : Blob → Blob
  | [] => []
  | p :: rest => insertByName p (sortBlob rest)

/-- Modelled from the spec: the canonical serialisation of a blob (§3):
fields sorted by name, each rendered `name=value;value`, joined by commas. -/
def canonicalBlob (b : Blob) : String :=
  ⟨joinWithChar ',' ((sortBlob b).map (fun p =>
    p.1.data ++ '=' :: joinWithChar ';' (p.2.map String.data)))⟩

/-- A patch: an ordered batch of proposed commands not yet committed (§3). -/
structure Patch where
  commands : List Command
deriving DecidableEq

/-- The primary-key value of a blob (first atomic value of the schema's
designated primary-key field). -/
def blobKey (schema : Schema) (b : Blob) : String :=
  match schema.primaryKey with
  | some pk =>
    match lookupA b pk with
    | some (v :: _) => v
    | _ => ""
  | none => ""

/-- Modelled from the spec: build a patch from tabular blobs (§4.5): per
blob, in input order, an `add-item` (skipped when the target register's item
table already holds the hash) followed by an `append-entry` under the single
patch timestamp. -/
def Patch.ofBlobs (schema : Schema) (blobs : List Blob) (timestamp : String)
    (existingItems : List (String × String)) : Patch :=
  ⟨(blobs.map (fun b =>
      let canonical := canonicalBlob b
      let h := itemHash canonical
      let entryCmd : Command := ⟨"append-entry", [blobKey schema b, timestamp, h]⟩
      if (lookupA existingItems h).isSome then [entryCmd]
      else [⟨"add-item", [canonical]⟩, entryCmd])).flatten⟩

/-- Modelled from the spec: build a patch from a pre-built command sequence,
taken as given in its original order with no re-stamping (§4.5). -/
def Patch.ofCommands (cmds : List Command) : Patch := ⟨cmds⟩

/- ## Validator / applier

Modelled from the spec: `Register.apply` (§4.6) validates every patch
command against the current state plus all prior commands accepted within
the same patch, collecting all violations; only an empty error list lets the
patch commands merge into the register. -/

/-- A single patch validation failure (§4.6, §7). -/
inductive ValidationError
  | replay (e : ReplayError)
  | unknownField (name : String)
  | badCardinality (name : String)
  | typeMismatch (field value datatype : String)
  | missingPrimaryKey
  | malformedItem
deriving DecidableEq

/-- Parse `name=value;value` pairs back out of a canonical serialisation. -/
def parsePairs : List (List Char) → Option Blob
  | [] => some []
  | p :: ps =>
    match splitOnChar '=' p with
    | [namecs, valcs] =>
      match parsePairs ps with
      | some rest =>
        some ((⟨namecs⟩, (splitOnChar ';' valcs).map (fun l => (⟨l⟩ : String))) :: rest)
      | none => none
    | _ => none

/-- Parse a canonical item serialisation back into a blob. -/
def parseBlob (s : String) : Option Blob := parsePairs (splitOnChar ',' s.data)

/-- Schema conformance errors of a blob (§4.6): unknown fields, cardinality
violations, datatype violations, missing primary key. -/
def blobErrors (schema : Schema) (b : Blob) : List ValidationError :=
  (b.map (fun p =>
    match schema.fieldDef p.1 with
    | none => [ValidationError.unknownField p.1]
    | some fd =>
      (if fd.card = "1" ∧ p.2.length ≠ 1 then [ValidationError.badCardinality p.1] else [])
        ++ p.2.filterMap (fun v =>
          if coerces fd.datatype v then none
          else some (ValidationError.typeMismatch p.1 v fd.datatype)))).flatten
  ++ (match schema.primaryKey with
      | some pk =>
        if (lookupA b pk).isSome then [] else [ValidationError.missingPrimaryKey]
      | none => [ValidationError.missingPrimaryKey])

/-- Schema conformance errors of one patch command (§4.6): the payload of an
`add-item` must be a schema-conformant blob; other commands carry no blob. -/
def conformErrors (schema : Schema) (c : Command) : List ValidationError :=
  match c.op, c.fields with
  | "add-item", [canonical] =>
    match parseBlob canonical with
    | some b => blobErrors schema b
    | none => [ValidationError.malformedItem]
  | _, _ => []

/-- Validate one patch command against the running state: its conformance
and replay-integrity errors are collected; only an error-free command is
accepted into the running state (§4.6). -/
def validateStep (st : Register) (c : Command) : List ValidationError × Register :=
  match step st c with
  | .error e => (conformErrors st.schema c ++ [ValidationError.replay e], st)
  | .ok st' =>
    match conformErrors st.schema c with
    | [] => ([], st')
    | errs => (errs, st)

/-- Validate every patch command in order, collecting all errors across all
commands — validation does not stop at the first error (§4.6). -/
def validateAll (r : Register) : List Command → List ValidationError × Register
  | [] => ([], r)
  | c :: cs =>
    ((validateStep r c).1 ++ (validateAll (validateStep r c).2 cs).1,
      (validateAll (validateStep r c).2 cs).2)

/-- The running states seen by `validateAll`, one per command, in order. -/
def statesAlong (r : Register) : List Command → List Register
  | [] => []
  | c :: cs => r :: statesAlong (validateStep r c).2 cs

/-- Modelled from the spec: `Register.apply(patch)` (§4.6): validate the
whole patch; an empty error list merges the accepted commands into the
register, a non-empty one leaves the register untouched (all-or-nothing). -/
def Register.applyPatch (r : Register) (p : Patch) : List ValidationError × Register :=
  if (validateAll r p.commands).1.isEmpty then ([], (validateAll r p.commands).2)
  else ((validateAll r p.commands).1, r)

/- ## The patch command group pipeline

The following definitions are translated directly from
`registers/commands/patch.py`: `create`, `apply` and `_apply`, together with
the CLI result surface (printed output and process exit code). -/

/-- A fatal engine failure surfaced through `utils.error` (§7). -/
inductive RunError
  | format (e : FormatError)
  | replay (e : ReplayError)
  | schemaNotReady
  | xsv (e : XsvError)
deriving DecidableEq

/-- The observable outcome of one `create`/`apply` run: a fatal engine
error, a validation failure batch (printed, then `exit(1)`), the emitted
not-yet-applied command list, or the count of appended commands. -/
inductive RunResult
  | fatal (e : RunError)
  | validationFailure (errs : List ValidationError)
  | patchOutput (cmds : List Command)
  | applied (count : Nat)
deriving DecidableEq

/-- Process exit status of an outcome: validation failures exit with 1
(`exit(1)` in `create`/`apply`), fatal errors are non-zero (§7), successes
exit 0. -/
def RunResult.exitCode : RunResult → Nat
  | .fatal _ => 1
  | .validationFailure _ => 1
  | .patchOutput _ => 0
  | .applied _ => 0

/-- Modelled from the spec: `utils.check_readiness` fails with
`SchemaNotReadyError` unless the replayed schema is ready (§4.2). -/
def check_readiness (r : Register) : Except RunError Unit :=
  if r.schema.isReady then .ok () else .error .schemaNotReady

/-- The register state denoted by a log file: parse it and replay it. -/
def registerOf (log : String) : Except RunError Register :=
  match rsfParse log with
  | .error e => .error (.format e)
  | .ok cmds =>
    match Register.build cmds with
    | .error e => .error (.replay e)
    | .ok r => .ok r

/-- From the source (`_apply`): append the serialised patch commands, one
per line, to the end of the log file and return the appended count. -/
def _apply (patch : Patch) (logContent : String) : Nat × String :=
  (patch.commands.length, logContent ++ rsfSerialise patch.commands)

/-- From the source (`create`): read the log, build the register, check
readiness, deserialise the tabular input, build and validate the patch;
on validation errors print them and `exit(1)` with no mutation; otherwise
commit when `apply_flag` is set, or return the patch commands.  The second
component is the log file content after the call. -/
def create (xsvContent logContent timestamp : String) (applyFlag : Bool) :
    RunResult × String :=
  match rsfParse logContent with
  | .error e => (.fatal (.format e), logContent)
  | .ok cmds =>
    match Register.build cmds with
    | .error e => (.fatal (.replay e), logContent)
    | .ok register =>
      match check_readiness register with
      | .error e => (.fatal e, logContent)
      | .ok _ =>
        match deserialise xsvContent register.schema with
        | .error e => (.fatal (.xsv e), logContent)
        | .ok blobs =>
          let patch := Patch.ofBlobs register.schema blobs timestamp register.items
          let errors := (register.applyPatch patch).1
          if errors.isEmpty then
            if applyFlag then
              let res := _apply patch logContent
              (.applied res.1, res.2)
            else (.patchOutput patch.commands, logContent)
          else (.validationFailure errors, logContent)

/-- From the source (`apply`): read the log, build the register, check
readiness, read the patch file as a raw command sequence, validate; on
validation errors print them and `exit(1)` with no mutation; otherwise
commit.  The second component is the log file content after the call. -/
def apply (patchContent logContent : String) : RunResult × String :=
  match rsfParse logContent with
  | .error e => (.fatal (.format e), logContent)
  | .ok cmds =>
    match Register.build cmds with
    | .error e => (.fatal (.replay e), logContent)
    | .ok register =>
      match check_readiness register with
      | .error e => (.fatal e, logContent)
      | .ok _ =>
        match rsfParse patchContent with
        | .error e => (.fatal (.format e), logContent)
        | .ok patchCmds =>
          let patch := Patch.ofCommands patchCmds
          let errors := (register.applyPatch patch).1
          if errors.isEmpty then
            let res := _apply patch logContent
            (.applied res.1, res.2)
          else (.validationFailure errors, logContent)

/- ## Timestamps

Modelled from the spec: `core.format_timestamp` is not part of the excerpted
source; §6 fixes that a timestamp is an RFC3339-formatted string defaulting
to the current time when unspecified by the caller. -/

/-- A calendar timestamp, the argument of `format_timestamp`. -/
structure DateTime where
  year : Nat
  month : Nat
  day : Nat
  hour : Nat
  minute : Nat
  second : Nat
deriving DecidableEq

/-- The decimal digit character of `n mod 10`. -/
def digitChar (n : Nat) : Char := Char.ofNat (48 + n % 10)

/-- Two-digit zero-padded decimal rendering. -/
def pad2 (n : Nat) : String := ⟨[digitChar (n / 10), digitChar n]⟩

/-- Four-digit zero-padded decimal rendering. -/
def pad4 (n : Nat) : String :=
  ⟨[digitChar (n / 1000), digitChar (n / 100), digitChar (n / 10), digitChar n]⟩

/-- Modelled from the spec: render a timestamp in RFC3339 form
`YYYY-MM-DDTHH:MM:SSZ` (`core.format_timestamp`, §6). -/
def format_timestamp (d : DateTime) : String :=
  pad4 d.year ++ "-" ++ pad2 d.month ++ "-" ++ pad2 d.day ++ "T" ++
    pad2 d.hour ++ ":" ++ pad2 d.minute ++ ":" ++ pad2 d.second ++ "Z"

/-- From the source (`create_command`): the CLI entry point for
`patch create`; when the caller supplies no `--timestamp`, the option
defaults to the formatted current time. -/
def create_command (xsvContent logContent : String) (timestampOpt : Option String)
    (applyFlag : Bool) (now : DateTime) : RunResult × String :=
  create xsvContent logContent (timestampOpt.getD (format_timestamp now)) applyFlag

/-- Shape check for RFC3339 timestamps `YYYY-MM-DDTHH:MM:SSZ`: twenty
characters, digits in the date and time positions, the fixed separators
`-`, `T`, `:` and the trailing `Z` in theirs. -/
def isRFC3339 (s : String) : Bool :=
  match s.data with
  | [y1, y2, y3, y4, '-', m1, m2, '-', d1, d2, 'T',
     h1, h2, ':', n1, n2, ':', s1, s2, 'Z'] =>
    [y1, y2, y3, y4, m1, m2, d1, d2, h1, h2, n1, n2, s1, s2].all Char.isDigit
  | _ => false

/- ## Concrete example inputs

Shared concrete inputs used to exercise the pipeline: a bootstrap log whose
schema is `{key : string(1), name : string(1)}` with primary key `key`, the
worked tabular example, and variants that fail validation or readiness. -/

/-- Bootstrap log: register metadata plus the two field declarations. -/
def exampleLog : String :=
  "register\tr\tkey\nadd-field\tkey\tstring\t1\nadd-field\tname\tstring\t1\n"

/-- The worked tabular input `key,name / 1,Alpha / 2,Beta`. -/
def exampleXsv : String := "key,name\n1,Alpha\n2,Beta"

/-- The worked example timestamp. -/
def exampleTimestamp : String := "2024-01-01T00:00:00Z"

/-- The log after committing the worked example patch. -/
def exampleLogFull : String :=
  exampleLog ++
    "add-item\tkey=1,name=Alpha\nappend-entry\t1\t2024-01-01T00:00:00Z\tkey=1,name=Alpha\nadd-item\tkey=2,name=Beta\nappend-entry\t2\t2024-01-01T00:00:00Z\tkey=2,name=Beta\n"

/-- A later tabular input that rewrites both keys. -/
def exampleXsvLate : String := "key,name\n1,Gamma\n2,Delta"

/-- A timestamp earlier than the committed entries, so that appending under
it violates timestamp monotonicity. -/
def exampleEarlyTimestamp : String := "2020-01-01T00:00:00Z"

/-- A well-formed patch file adding a third key. -/
def examplePatchFile : String :=
  "add-item\tkey=3,name=Ceta\nappend-entry\t3\t2024-02-02T00:00:00Z\tkey=3,name=Ceta\n"

/-- A patch file whose entry is stamped earlier than the committed entry. -/
def examplePatchOutOfOrder : String :=
  "append-entry\t1\t2020-01-01T00:00:00Z\tkey=1,name=Alpha\n"

/-- A log that parses and replays but leaves the schema unready. -/
def exampleLogNotReady : String := "custom-field\tfoo\n"

/-- A tabular input whose column delimiter is the reserved `;`. -/
def exampleXsvSemicolon : String := "key;name\n1;Alpha"

/-- The schema of the worked example. -/
def exampleSchema : Schema :=
  ⟨some "r", some "key", [⟨"key", "string", "1"⟩, ⟨"name", "string", "1"⟩], []⟩

/-- The register replayed from `exampleLog`: empty but ready. -/
def exampleRegister : Register := ⟨exampleSchema, [], [], 3⟩

/-- The register replayed from `exampleLogFull`. -/
def exampleRegisterFull : Register :=
  ⟨exampleSchema,
    [("1", ⟨"2024-01-01T00:00:00Z", "key=1,name=Alpha"⟩),
     ("2", ⟨"2024-01-01T00:00:00Z", "key=2,name=Beta"⟩)],
    [("key=1,name=Alpha", "key=1,name=Alpha"),
     ("key=2,name=Beta", "key=2,name=Beta")], 7⟩

/-- The blobs deserialised from `exampleXsv`. -/
def exampleBlobs : List Blob :=
  [[("key", ["1"]), ("name", ["Alpha"])], [("key", ["2"]), ("name", ["Beta"])]]

theorem splitOnChar_ne_nil (sep : Char) (l : List Char) : splitOnChar sep l ≠ [] := by
  simp [splitOnChar]

theorem splitAux_no_sep (sep : Char) (l : List Char) (h : sep ∉ l) :
    splitAux sep l = (l, []) := by
  induction l with
  | nil => rfl
  | cons c cs ih =>
    have hc : ¬ c = sep := by
      intro e
      exact h (by simp [e])
    have hcs : sep ∉ cs := fun m => h (List.mem_cons_of_mem _ m)
    simp only [splitAux, ih hcs, if_neg hc]

theorem splitOnChar_no_sep (sep : Char) (l : List Char) (h : sep ∉ l) :
    splitOnChar sep l = [l] := by
  simp [splitOnChar, splitAux_no_sep sep l h]

theorem splitAux_append (sep : Char) (x zs : List Char) (h : sep ∉ x) :
    splitAux sep (x ++ sep :: zs)
      = (x, (splitAux sep zs).1 :: (splitAux sep zs).2) := by
  induction x with
  | nil => simp [splitAux]
  | cons c cs ih =>
    have hc : ¬ c = sep := by
      intro e
      exact h (by simp [e])
    have hcs : sep ∉ cs := fun m => h (List.mem_cons_of_mem _ m)
    simp only [List.cons_append, splitAux, List.append_eq, ih hcs, if_neg hc]

theorem splitOnChar_append (sep : Char) (x zs : List Char) (h : sep ∉ x) :
    splitOnChar sep (x ++ sep :: zs) = x :: splitOnChar sep zs := by
  simp [splitOnChar, splitAux_append sep x zs h]

theorem splitOnChar_joinWithChar (sep : Char) (parts : List (List Char))
    (hne : parts ≠ []) (h : ∀ p ∈ parts, sep ∉ p) :
    splitOnChar sep (joinWithChar sep parts) = parts := by
  induction parts with
  | nil => exact absurd rfl hne
  | cons p ps ih =>
    cases ps with
    | nil => exact splitOnChar_no_sep sep p (h p (by simp))
    | cons q qs =>
      have hstep : joinWithChar sep (p :: q :: qs) = p ++ sep :: joinWithChar sep (q :: qs) := rfl
      rw [hstep, splitOnChar_append sep p _ (h p (by simp)),
        ih (by simp) (fun r hr => h r (List.mem_cons_of_mem _ hr))]

theorem mem_joinWithChar (sep : Char) (parts : List (List Char)) (a : Char)
    (h : a ∈ joinWithChar sep parts) : (∃ p ∈ parts, a ∈ p) ∨ a = sep := by
  induction parts with
  | nil => simp [joinWithChar] at h
  | cons p ps ih =>
    cases ps with
    | nil =>
      simp only [joinWithChar] at h
      exact Or.inl ⟨p, by simp, h⟩
    | cons q qs =>
      simp only [joinWithChar, List.mem_append, List.mem_cons] at h
      rcases h with h | h | h
      · exact Or.inl ⟨p, by simp, h⟩
      · exact Or.inr h
      · rcases ih h with ⟨r, hr, ha⟩ | hs
        · exact Or.inl ⟨r, List.mem_cons_of_mem _ hr, ha⟩
        · exact Or.inr hs

theorem joinWithChar_ne_nil (sep : Char) (x : List Char) (rest : List (List Char))
    (hx : x ≠ []) : joinWithChar sep (x :: rest) ≠ [] := by
  cases rest with
  | nil => exact hx
  | cons r rs =>
    simp only [joinWithChar]
    cases x with
    | nil => exact absurd rfl hx
    | cons a as => simp

theorem arityOf_chars (op : String) (n : Nat) (h : arityOf op = some n) :
    '\t' ∉ op.data ∧ '\n' ∉ op.data ∧ op.data ≠ [] := by
  unfold arityOf at h
  split_ifs at h with h1 h2 h3 h4 h5 h6 <;>
    first
      | (subst h1; decide)
      | (subst h2; decide)
      | (subst h3; decide)
      | (subst h4; decide)
      | (subst h5; decide)
      | (subst h6; decide)

theorem serializeCommand_parts (c : Command) (h : c.wff) :
    ∀ p ∈ (c.op :: c.fields).map String.data, '\t' ∉ p := by
  intro p hp
  simp only [List.map_cons, List.mem_cons, List.mem_map] at hp
  rcases hp with hp | ⟨f, hf, hfp⟩
  · subst hp
    exact (arityOf_chars c.op _ h.1).1
  · subst hfp
    exact (h.2 f hf).1

theorem parseLine_serializeCommand (c : Command) (h : c.wff) :
    parseLine (serializeCommand c).data = .ok c := by
  have hsplit : splitOnChar '\t' (serializeCommand c).data
      = (c.op :: c.fields).map String.data :=
    splitOnChar_joinWithChar '\t' _ (by simp) (serializeCommand_parts c h)
  have hmap : (((c.op :: c.fields).map String.data).map (fun l => (⟨l⟩ : String)))
      = c.op :: c.fields := by
    rw [List.map_map]
    have hid : ((fun l => (⟨l⟩ : String)) ∘ String.data) = id := by
      funext s
      rfl
    rw [hid, List.map_id]
  unfold parseLine
  rw [hsplit, hmap]
  simp [h.1]

theorem serializeCommand_no_newline (c : Command) (h : c.wff) :
    '\n' ∉ (serializeCommand c).data := by
  intro hmem
  rcases mem_joinWithChar '\t' _ _ hmem with ⟨p, hp, hin⟩ | hs
  · simp only [List.map_cons, List.mem_cons, List.mem_map] at hp
    rcases hp with hp | ⟨f, hf, hfp⟩
    · subst hp
      exact (arityOf_chars c.op _ h.1).2.1 hin
    · subst hfp
      exact (h.2 f hf).2 hin
  · exact absurd hs (by decide)

theorem serializeCommand_ne_nil (c : Command) (h : c.wff) :
    (serializeCommand c).data ≠ [] := by
  show joinWithChar '\t' ((c.op :: c.fields).map String.data) ≠ []
  rw [List.map_cons]
  exact joinWithChar_ne_nil '\t' _ _ (arityOf_chars c.op _ h.1).2.2

theorem parseLines_serialised (cmds : List Command) (h : ∀ c ∈ cmds, c.wff) :
    parseLines (((splitOnChar '\n'
        ((cmds.map (fun c => (serializeCommand c).data ++ ['\n'])).flatten))).filter
        (fun l => !l.isEmpty)) = .ok cmds := by
  induction cmds with
  | nil => rfl
  | cons c cs ih =>
    have hc := h c (by simp)
    have hcs : ∀ d ∈ cs, d.wff := fun d hd => h d (List.mem_cons_of_mem _ hd)
    have harr : ((c :: cs).map (fun d => (serializeCommand d).data ++ ['\n'])).flatten
        = (serializeCommand c).data
            ++ '\n' :: (cs.map (fun d => (serializeCommand d).data ++ ['\n'])).flatten := by
      simp
    rw [harr, splitOnChar_append '\n' _ _ (serializeCommand_no_newline c hc),
      List.filter_cons]
    have hne : (serializeCommand c).data.isEmpty = false := by
      cases hd : (serializeCommand c).data with
      | nil => exact absurd hd (serializeCommand_ne_nil c hc)
      | cons a as => rfl
    simp only [hne, Bool.not_false, if_pos]
    show parseLines ((serializeCommand c).data :: _) = _
    unfold parseLines
    rw [parseLine_serializeCommand c hc, ih hcs]

theorem rsfParse_rsfSerialise (cmds : List Command) (h : ∀ c ∈ cmds, c.wff) :
    rsfParse (rsfSerialise cmds) = .ok cmds := by
  have hdata : (rsfSerialise cmds).data
      = (cmds.map (fun c => (serializeCommand c).data ++ ['\n'])).flatten := rfl
  unfold rsfParse
  rw [hdata]
  exact parseLines_serialised cmds h

theorem ReplayRel.deterministic {r : Register} {cs : List Command}
    {o₁ o₂ : Except ReplayError Register}
    (h₁ : ReplayRel r cs o₁) (h₂ : ReplayRel r cs o₂) : o₁ = o₂ := by
  induction h₁ generalizing o₂ with
  | done r =>
    cases h₂ with
    | done => rfl
  | stepOk hs hrest ih =>
    cases h₂ with
    | stepOk hs' hrest' =>
      rw [hs] at hs'
      cases hs'
      exact ih hrest'
    | stepFail hs' =>
      rw [hs] at hs'
      cases hs'
  | stepFail hs =>
    cases h₂ with
    | stepOk hs' hrest' =>
      rw [hs] at hs'
      cases hs'
    | stepFail hs' =>
      rw [hs] at hs'
      cases hs'
      rfl

theorem ReplayRel.of_replayFold (r : Register) (cs : List Command) :
    ReplayRel r cs (replayFold r cs) := by
  induction cs generalizing r with
  | nil => exact ReplayRel.done r
  | cons c cs ih =>
    cases hs : step r c with
    | error e =>
      have : replayFold r (c :: cs) = .error e := by
        simp only [replayFold, hs]
      rw [this]
      exact ReplayRel.stepFail hs
    | ok r' =>
      have : replayFold r (c :: cs) = replayFold r' cs := by
        simp only [replayFold, hs]
      rw [this]
      exact ReplayRel.stepOk hs (ih r')

theorem check_readiness_ok (r : Register) (u : Unit)
    (h : check_readiness r = .ok u) : r.schema.isReady = true := by
  cases hr : r.schema.isReady with
  | true => rfl
  | false =>
    unfold check_readiness at h
    rw [hr] at h
    simp at h

theorem applyPatch_stable (r : Register) (p : Patch)
    (h : (r.applyPatch p).1 ≠ []) : (r.applyPatch p).2 = r := by
  unfold Register.applyPatch at h ⊢
  cases he : (validateAll r p.commands).1.isEmpty with
  | true =>
    rw [he] at h
    simp at h
  | false => simp

theorem validateAll_join (r : Register) (cs : List Command) :
    (validateAll r cs).1
      = (((statesAlong r cs).zip cs).map (fun p => (validateStep p.1 p.2).1)).flatten := by
  induction cs generalizing r with
  | nil => rfl
  | cons c cs ih =>
    show (validateStep r c).1 ++ (validateAll (validateStep r c).2 cs).1 = _
    rw [ih (validateStep r c).2]
    rfl

theorem create_shape (x l t : String) (f : Bool) :
    (∃ e, create x l t f = (.fatal e, l)) ∨
    (∃ errs, errs ≠ [] ∧ create x l t f = (.validationFailure errs, l)) ∨
    (∃ cmds reg blobs,
      rsfParse l = .ok cmds ∧ Register.build cmds = .ok reg ∧
      reg.schema.isReady = true ∧ deserialise x reg.schema = .ok blobs ∧
      (reg.applyPatch (Patch.ofBlobs reg.schema blobs t reg.items)).1 = [] ∧
      ((f = false ∧ create x l t f
          = (.patchOutput (Patch.ofBlobs reg.schema blobs t reg.items).commands, l)) ∨
       (f = true ∧ create x l t f
          = (.applied (Patch.ofBlobs reg.schema blobs t reg.items).commands.length,
             l ++ rsfSerialise (Patch.ofBlobs reg.schema blobs t reg.items).commands)))) := by
  cases hp : rsfParse l with
  | error e => exact Or.inl ⟨.format e, by simp [create, hp]⟩
  | ok cmds =>
  cases hb : Register.build cmds with
  | error e => exact Or.inl ⟨.replay e, by simp [create, hp, hb]⟩
  | ok reg =>
  cases hr : check_readiness reg with
  | error e => exact Or.inl ⟨e, by simp [create, hp, hb, hr]⟩
  | ok u =>
  cases hd : deserialise x reg.schema with
  | error e => exact Or.inl ⟨.xsv e, by simp [create, hp, hb, hr, hd]⟩
  | ok blobs =>
  cases herr : (reg.applyPatch (Patch.ofBlobs reg.schema blobs t reg.items)).1 with
  | cons e es =>
    exact Or.inr (Or.inl ⟨e :: es, by simp, by simp [create, hp, hb, hr, hd, herr]⟩)
  | nil =>
    refine Or.inr (Or.inr
      ⟨cmds, reg, blobs, rfl, hb, check_readiness_ok reg u hr, hd, herr, ?_⟩)
    cases f with
    | false => exact Or.inl ⟨rfl, by simp [create, hp, hb, hr, hd, herr]⟩
    | true => exact Or.inr ⟨rfl, by simp [create, hp, hb, hr, hd, herr, _apply]⟩

theorem apply_shape (pc l : String) :
    (∃ e, apply pc l = (.fatal e, l)) ∨
    (∃ errs, errs ≠ [] ∧ apply pc l = (.validationFailure errs, l)) ∨
    (∃ cmds reg pcmds,
      rsfParse l = .ok cmds ∧ Register.build cmds = .ok reg ∧
      reg.schema.isReady = true ∧ rsfParse pc = .ok pcmds ∧
      (reg.applyPatch (Patch.ofCommands pcmds)).1 = [] ∧
      apply pc l = (.applied pcmds.length, l ++ rsfSerialise pcmds)) := by
  cases hp : rsfParse l with
  | error e => exact Or.inl ⟨.format e, by simp [apply, hp]⟩
  | ok cmds =>
  cases hb : Register.build cmds with
  | error e => exact Or.inl ⟨.replay e, by simp [apply, hp, hb]⟩
  | ok reg =>
  cases hr : check_readiness reg with
  | error e => exact Or.inl ⟨e, by simp [apply, hp, hb, hr]⟩
  | ok u =>
  cases hpc : rsfParse pc with
  | error e => exact Or.inl ⟨.format e, by simp [apply, hp, hb, hr, hpc]⟩
  | ok pcmds =>
  cases herr : (reg.applyPatch (Patch.ofCommands pcmds)).1 with
  | cons e es =>
    exact Or.inr (Or.inl ⟨e :: es, by simp, by simp [apply, hp, hb, hr, hpc, herr]⟩)
  | nil =>
    have herr2 : (reg.applyPatch ⟨pcmds⟩).1 = [] := herr
    exact Or.inr (Or.inr ⟨cmds, reg, pcmds, rfl, hb, check_readiness_ok reg u hr, rfl,
      herr, by simp [apply, hp, hb, hr, hpc, herr2, _apply, Patch.ofCommands]⟩)

theorem create_vfail_inv (x l t : String) (f : Bool) (errs : List ValidationError)
    (h : (create x l t f).1 = .validationFailure errs) :
    errs ≠ [] ∧ (create x l t f).2 = l := by
  rcases create_shape x l t f with ⟨e, he⟩ | ⟨errs0, hne, he⟩ |
    ⟨cmds, reg, blobs, _, _, _, _, _, hfin⟩
  · rw [he] at h
    simp at h
  · rw [he] at h
    simp at h
    subst h
    exact ⟨hne, by rw [he]⟩
  · rcases hfin with ⟨_, he⟩ | ⟨_, he⟩ <;> rw [he] at h <;> simp at h

theorem apply_vfail_inv (pc l : String) (errs : List ValidationError)
    (h : (apply pc l).1 = .validationFailure errs) :
    errs ≠ [] ∧ (apply pc l).2 = l := by
  rcases apply_shape pc l with ⟨e, he⟩ | ⟨errs0, hne, he⟩ |
    ⟨cmds, reg, pcmds, _, _, _, _, _, he⟩
  · rw [he] at h
    simp at h
  · rw [he] at h
    simp at h
    subst h
    exact ⟨hne, by rw [he]⟩
  · rw [he] at h
    simp at h

theorem digitChar_isDigit (n : Nat) : (digitChar n).isDigit = true := by
  unfold digitChar
  have h : n % 10 < 10 := Nat.mod_lt n (by omega)
  set k := n % 10 with hk
  interval_cases k <;> decide

theorem isRFC3339_format (d : DateTime) : isRFC3339 (format_timestamp d) = true := by
  show ([digitChar (d.year / 1000), digitChar (d.year / 100), digitChar (d.year / 10),
      digitChar d.year, digitChar (d.month / 10), digitChar d.month,
      digitChar (d.day / 10), digitChar d.day, digitChar (d.hour / 10), digitChar d.hour,
      digitChar (d.minute / 10), digitChar d.minute, digitChar (d.second / 10),
      digitChar d.second].all Char.isDigit) = true
  simp [List.all_cons, digitChar_isDigit]

/-- Claim C1: for every register state and every patch, if applying the
patch yields a non-empty list of validation errors, no mutation is
committed: the log content after the call equals the content before it, the
register state denoted by the log is unchanged, and `Register.apply` leaves
the in-memory register untouched (all-or-nothing). -/
theorem C1_all_or_nothing (x l t pc : String) (f : Bool)
    (errs errs' : List ValidationError) (r : Register) (p : Patch) :
    ((create x l t f).1 = .validationFailure errs →
      errs ≠ [] ∧ (create x l t f).2 = l ∧
        registerOf ((create x l t f).2) = registerOf l) ∧
    ((apply pc l).1 = .validationFailure errs' →
      errs' ≠ [] ∧ (apply pc l).2 = l ∧
        registerOf ((apply pc l).2) = registerOf l) ∧
    ((r.applyPatch p).1 ≠ [] → (r.applyPatch p).2 = r) := by
  refine ⟨fun h => ?_, fun h => ?_, applyPatch_stable r p⟩
  · obtain ⟨hne, hlog⟩ := create_vfail_inv x l t f errs h
    exact ⟨hne, hlog, by rw [hlog]⟩
  · obtain ⟨hne, hlog⟩ := apply_vfail_inv pc l errs' h
    exact ⟨hne, hlog, by rw [hlog]⟩

/-- Claim C1 witness: a patch stamped earlier than the committed entries
fails validation and leaves the log and register untouched. -/
theorem C1_witness :
    [ValidationError.replay (.outOfOrder 8), ValidationError.replay (.outOfOrder 9)]
        ≠ ([] : List ValidationError) ∧
    (create exampleXsvLate exampleLogFull exampleEarlyTimestamp true).2
        = exampleLogFull ∧
    registerOf ((create exampleXsvLate exampleLogFull exampleEarlyTimestamp true).2)
      = registerOf exampleLogFull :=
  (C1_all_or_nothing exampleXsvLate exampleLogFull exampleEarlyTimestamp "" true
      [ValidationError.replay (.outOfOrder 8), ValidationError.replay (.outOfOrder 9)]
      [] Register.empty ⟨[]⟩).1 (by rfl)

/-- Claim C2: a successful commit only appends: the previous log bytes are
an unmodified prefix of the new log, and the serialised patch commands are
written one per line at the end, in both the `apply` path and the
`create --apply` path. -/
theorem C2_append_only (x pc l t newLog : String) (n : Nat) :
    (apply pc l = (.applied n, newLog) →
      ∃ cmds, rsfParse pc = .ok cmds ∧
        newLog = l ++ rsfSerialise cmds ∧
        l.data <+: newLog.data ∧
        (rsfSerialise cmds).data
          = (cmds.map (fun c => (serializeCommand c).data ++ ['\n'])).flatten ∧
        n = cmds.length) ∧
    (create x l t true = (.applied n, newLog) →
      ∃ p : Patch, newLog = l ++ rsfSerialise p.commands ∧
        l.data <+: newLog.data ∧ n = p.commands.length) := by
  constructor
  · intro h
    rcases apply_shape pc l with ⟨e, he⟩ | ⟨errs, hne, he⟩ |
      ⟨cmds, reg, pcmds, hp, hb, hready, hpc, herr, he⟩
    · rw [he] at h
      simp at h
    · rw [he] at h
      simp at h
    · rw [he] at h
      have h1 : pcmds.length = n := by
        have h0 := congrArg Prod.fst h
        simpa using h0
      have h2 : newLog = l ++ rsfSerialise pcmds := by
        have h0 := congrArg Prod.snd h
        simpa using h0.symm
      refine ⟨pcmds, hpc, h2, ?_, rfl, h1.symm⟩
      rw [h2]
      exact ⟨(rsfSerialise pcmds).data, rfl⟩
  · intro h
    rcases create_shape x l t true with ⟨e, he⟩ | ⟨errs, hne, he⟩ |
      ⟨cmds, reg, blobs, hp, hb, hready, hd, herr, hfin⟩
    · rw [he] at h
      simp at h
    · rw [he] at h
      simp at h
    · rcases hfin with ⟨hf, he⟩ | ⟨hf, he⟩
      · simp at hf
      · rw [he] at h
        have h1 : (Patch.ofBlobs reg.schema blobs t reg.items).commands.length = n := by
          have h0 := congrArg Prod.fst h
          simpa using h0
        have h2 : newLog
            = l ++ rsfSerialise (Patch.ofBlobs reg.schema blobs t reg.items).commands := by
          have h0 := congrArg Prod.snd h
          simpa using h0.symm
        refine ⟨Patch.ofBlobs reg.schema blobs t reg.items, h2, ?_, h1.symm⟩
        rw [h2]
        exact ⟨(rsfSerialise (Patch.ofBlobs reg.schema blobs t reg.items).commands).data, rfl⟩

/-- Claim C2 witness: applying a concrete patch file appends exactly its
serialised commands to the end of the log. -/
theorem C2_witness :
    ∃ cmds, rsfParse examplePatchFile = .ok cmds ∧
      exampleLogFull ++ examplePatchFile = exampleLogFull ++ rsfSerialise cmds ∧
      exampleLogFull.data <+: (exampleLogFull ++ examplePatchFile).data ∧
      (rsfSerialise cmds).data
        = (cmds.map (fun c => (serializeCommand c).data ++ ['\n'])).flatten ∧
      2 = cmds.length :=
  (C2_append_only "" examplePatchFile exampleLogFull ""
      (exampleLogFull ++ examplePatchFile) 2).1 (by rfl)

/-- Claim C3: validation collects the errors of every patch command against
its running state (it does not stop at the first error), and a run that
reports validation errors reports a non-empty batch and exits with status
code 1, in both the `create` and `apply` paths. -/
theorem C3_error_batch (x pc l t : String) (f : Bool)
    (errs errs' : List ValidationError) :
    (∀ (r : Register) (cs : List Command),
      (validateAll r cs).1
        = (((statesAlong r cs).zip cs).map (fun p => (validateStep p.1 p.2).1)).flatten) ∧
    ((create x l t f).1 = .validationFailure errs →
      errs ≠ [] ∧ ((create x l t f).1).exitCode = 1) ∧
    ((apply pc l).1 = .validationFailure errs' →
      errs' ≠ [] ∧ ((apply pc l).1).exitCode = 1) := by
  refine ⟨validateAll_join, fun h => ⟨(create_vfail_inv x l t f errs h).1, ?_⟩,
    fun h => ⟨(apply_vfail_inv pc l errs' h).1, ?_⟩⟩
  · rw [h]
    rfl
  · rw [h]
    rfl

/-- Claim C3 witness: a patch with two out-of-order entries reports both
errors as one batch and exits 1. -/
theorem C3_witness :
    [ValidationError.replay (.outOfOrder 8), ValidationError.replay (.outOfOrder 9)]
        ≠ ([] : List ValidationError) ∧
    ((create exampleXsvLate exampleLogFull exampleEarlyTimestamp false).1).exitCode = 1 :=
  (C3_error_batch exampleXsvLate "" exampleLogFull exampleEarlyTimestamp false
      [ValidationError.replay (.outOfOrder 8), ValidationError.replay (.outOfOrder 9)]
      []).2.1 (by rfl)

/-- Claim C4: parsing the serialisation of any well-formed command list
yields the list again, fields in order and blank fields preserved. -/
theorem C4_roundtrip (cmds : List Command) (h : ∀ c ∈ cmds, c.wff) :
    rsfParse (rsfSerialise cmds) = .ok cmds :=
  rsfParse_rsfSerialise cmds h

/-- Claim C4 witness: the round trip at a concrete command list covering
every operation, including a blank field. -/
theorem C4_witness :
    rsfParse (rsfSerialise
      [⟨"add-item", ["key=1,name=Alpha"]⟩,
       ⟨"append-entry", ["1", "2024-01-01T00:00:00Z", "key=1,name=Alpha"]⟩,
       ⟨"register", ["", "key"]⟩, ⟨"add-field", ["key", "string", "1"]⟩,
       ⟨"custom-field", ["foo"]⟩, ⟨"assert-root-hash", ["abc"]⟩])
      = .ok
      [⟨"add-item", ["key=1,name=Alpha"]⟩,
       ⟨"append-entry", ["1", "2024-01-01T00:00:00Z", "key=1,name=Alpha"]⟩,
       ⟨"register", ["", "key"]⟩, ⟨"add-field", ["key", "string", "1"]⟩,
       ⟨"custom-field", ["foo"]⟩, ⟨"assert-root-hash", ["abc"]⟩] :=
  C4_roundtrip _ (by decide)

/-- Claim C5: replay is a deterministic function of the command sequence:
any two replays of the same log from the empty register agree, and the
executable `Register.build` realises the replay relation. -/
theorem C5_replay_deterministic :
    (∀ (cmds : List Command) (o₁ o₂ : Except ReplayError Register),
      ReplayRel Register.empty cmds o₁ → ReplayRel Register.empty cmds o₂ → o₁ = o₂) ∧
    (∀ cmds : List Command, ReplayRel Register.empty cmds (Register.build cmds)) :=
  ⟨fun _ _ _ h₁ h₂ => ReplayRel.deterministic h₁ h₂,
   fun cmds => ReplayRel.of_replayFold Register.empty cmds⟩

/-- Claim C5 witness: the two replays of the empty log agree, one obtained
by the relation's base case and one by the executable build. -/
theorem C5_witness :
    (Except.ok Register.empty : Except ReplayError Register) = Register.build [] :=
  C5_replay_deterministic.1 [] _ _ (ReplayRel.done _) (C5_replay_deterministic.2 [])

/-- Claim C6: on input rows `key,name / 1,Alpha / 2,Beta` under the schema
`{key : string(1), name : string(1)}` and timestamp 2024-01-01T00:00:00Z,
patch creation emits exactly the four commands add-item, append-entry,
add-item, append-entry in that order, and applying the patch to the
empty-but-ready register yields entries 1 ↦ Alpha and 2 ↦ Beta with zero
validation errors. -/
theorem C6_example :
    (create exampleXsv exampleLog exampleTimestamp false).1 = .patchOutput
      [⟨"add-item", ["key=1,name=Alpha"]⟩,
       ⟨"append-entry", ["1", "2024-01-01T00:00:00Z", "key=1,name=Alpha"]⟩,
       ⟨"add-item", ["key=2,name=Beta"]⟩,
       ⟨"append-entry", ["2", "2024-01-01T00:00:00Z", "key=2,name=Beta"]⟩] ∧
    create exampleXsv exampleLog exampleTimestamp true = (.applied 4, exampleLogFull) ∧
    registerOf ((create exampleXsv exampleLog exampleTimestamp true).2)
      = .ok exampleRegisterFull ∧
    lookupA exampleRegisterFull.entries "1"
      = some ⟨"2024-01-01T00:00:00Z", itemHash "key=1,name=Alpha"⟩ ∧
    lookupA exampleRegisterFull.entries "2"
      = some ⟨"2024-01-01T00:00:00Z", itemHash "key=2,name=Beta"⟩ ∧
    lookupA exampleRegisterFull.items (itemHash "key=1,name=Alpha")
      = some "key=1,name=Alpha" ∧
    lookupA exampleRegisterFull.items (itemHash "key=2,name=Beta")
      = some "key=2,name=Beta" ∧
    deserialise exampleXsv exampleRegister.schema = .ok exampleBlobs ∧
    registerOf exampleLog = .ok exampleRegister ∧
    (exampleRegister.applyPatch (Patch.ofBlobs exampleRegister.schema exampleBlobs
      exampleTimestamp exampleRegister.items)).1 = [] := by
  refine ⟨?_, ?_, ?_, ?_, ?_, ?_, ?_, ?_, ?_, ?_⟩ <;> rfl

/-- Claim C7: when the caller supplies no timestamp, patch creation runs
with the formatted invocation time, which is an RFC3339 string; a supplied
timestamp is used verbatim. -/
theorem C7_timestamp_default (x l ts : String) (f : Bool) (now : DateTime) :
    create_command x l none f now = create x l (format_timestamp now) f ∧
    isRFC3339 (format_timestamp now) = true ∧
    create_command x l (some ts) f now = create x l ts f :=
  ⟨rfl, isRFC3339_format now, rfl⟩

/-- Claim C8: an entry-affecting command replayed against an unready schema
fails with the schema-not-ready error, and in both the `create` and `apply`
paths a log whose replayed schema is unready makes the run fail with
`SchemaNotReadyError` for every patch input — before any patch input is
deserialised or validated. -/
theorem C8_schema_readiness (x l t pc : String) (f : Bool) :
    (∀ (r : Register) (c : Command), entryAffecting c = true →
      r.schema.isReady = false →
      step r c = .error (.schemaNotReady r.commandCount)) ∧
    (∀ cmds reg, rsfParse l = .ok cmds → Register.build cmds = .ok reg →
      reg.schema.isReady = false → create x l t f = (.fatal .schemaNotReady, l)) ∧
    (∀ cmds reg, rsfParse l = .ok cmds → Register.build cmds = .ok reg →
      reg.schema.isReady = false → apply pc l = (.fatal .schemaNotReady, l)) := by
  refine ⟨?_, ?_, ?_⟩
  · intro r c haff hnr
    obtain ⟨op, fs⟩ := c
    simp only [entryAffecting, Bool.or_eq_true, Bool.and_eq_true,
      decide_eq_true_eq] at haff
    rcases haff with ⟨hop, hlen⟩ | ⟨hop, hlen⟩
    · subst hop
      obtain ⟨a, rfl⟩ := List.length_eq_one.mp hlen
      simp [step, hnr]
    · subst hop
      rcases fs with _ | ⟨a, _ | ⟨b, _ | ⟨c3, _ | ⟨d, ds⟩⟩⟩⟩ <;> simp at hlen
      simp [step, hnr]
  · intro cmds reg hp hb hnr
    have hcr : check_readiness reg = .error .schemaNotReady := by
      unfold check_readiness
      rw [hnr]
      simp
    simp [create, hp, hb, hcr]
  · intro cmds reg hp hb hnr
    have hcr : check_readiness reg = .error .schemaNotReady := by
      unfold check_readiness
      rw [hnr]
      simp
    simp [apply, hp, hb, hcr]

/-- Claim C8 witness: an `add-item` against the empty register fails as not
ready, and a log holding only a custom-field declaration makes both paths
fail with the schema-not-ready error for an arbitrary patch input. -/
theorem C8_witness :
    step Register.empty ⟨"add-item", ["x"]⟩ = .error (.schemaNotReady 0) ∧
    create "key,name" exampleLogNotReady "t" false
      = (.fatal .schemaNotReady, exampleLogNotReady) ∧
    apply "p" exampleLogNotReady = (.fatal .schemaNotReady, exampleLogNotReady) :=
  ⟨(C8_schema_readiness "key,name" exampleLogNotReady "t" "p" false).1
      Register.empty ⟨"add-item", ["x"]⟩ (by decide) (by rfl),
   (C8_schema_readiness "key,name" exampleLogNotReady "t" "p" false).2.1
      [⟨"custom-field", ["foo"]⟩] ⟨⟨none, none, [], ["foo"]⟩, [], [], 1⟩
      (by rfl) (by rfl) (by rfl),
   (C8_schema_readiness "key,name" exampleLogNotReady "t" "p" false).2.2
      [⟨"custom-field", ["foo"]⟩] ⟨⟨none, none, [], ["foo"]⟩, [], [], 1⟩
      (by rfl) (by rfl) (by rfl)⟩

/-- Claim C9: the deserialiser detects the column delimiter among tab and
comma by sampling the header line, and a file whose column delimiter is the
reserved `;` (a header with `;` and neither tab nor comma) fails
deserialisation rather than being silently misparsed. -/
theorem C9_delimiter (content : String) (schema : Schema) (header : List Char)
    (rest : List (List Char))
    (hsplit : (splitOnChar '\n' content.data).filter (fun l => !l.isEmpty)
      = header :: rest) :
    ('\t' ∈ header → detectDelim header = .ok '\t') ∧
    ('\t' ∉ header → ',' ∈ header → detectDelim header = .ok ',') ∧
    (';' ∈ header → '\t' ∉ header → ',' ∉ header →
      deserialise content schema = .error .badDelimiter) := by
  refine ⟨fun ht => ?_, fun ht hc => ?_, fun _hs ht hc => ?_⟩
  · unfold detectDelim
    rw [if_pos ht]
  · unfold detectDelim
    rw [if_neg ht, if_pos hc]
  · have hd : detectDelim header = .error .badDelimiter := by
      unfold detectDelim
      rw [if_neg ht, if_neg hc]
    simp only [deserialise, hsplit, hd]

/-- Claim C9 witness: the comma file detects a comma delimiter, and the
`;`-delimited file is rejected. -/
theorem C9_witness :
    detectDelim ("key,name".data) = .ok ',' ∧
    deserialise exampleXsvSemicolon exampleSchema = .error .badDelimiter :=
  ⟨(C9_delimiter exampleXsv exampleSchema ("key,name".data)
      ["1,Alpha".data, "2,Beta".data] (by rfl)).2.1 (by decide) (by decide),
   (C9_delimiter exampleXsvSemicolon exampleSchema ("key;name".data)
      ["1;Alpha".data] (by rfl)).2.2 (by decide) (by decide) (by decide)⟩

/-- Claim C10: `create` without the apply flag never modifies the log: the
log content after the call always equals the content before, the outcome is
never an appended-count, a validated patch is returned as its command list,
and the only writing code path is the commit helper `_apply`, which appends. -/
theorem C10_create_no_commit (x l t : String) :
    (create x l t false).2 = l ∧
    (∀ n, (create x l t false).1 ≠ .applied n) ∧
    (∀ cmds reg blobs, rsfParse l = .ok cmds → Register.build cmds = .ok reg →
      reg.schema.isReady = true → deserialise x reg.schema = .ok blobs →
      (reg.applyPatch (Patch.ofBlobs reg.schema blobs t reg.items)).1 = [] →
      (create x l t false).1
        = .patchOutput (Patch.ofBlobs reg.schema blobs t reg.items).commands) ∧
    (∀ (p : Patch) (log : String), (_apply p log).2 = log ++ rsfSerialise p.commands) := by
  refine ⟨?_, ?_, ?_, fun p log => rfl⟩
  · rcases create_shape x l t false with ⟨e, he⟩ | ⟨errs, hne, he⟩ |
      ⟨cmds, reg, blobs, hp, hb, hready, hd, herr, hfin⟩
    · rw [he]
    · rw [he]
    · rcases hfin with ⟨hf, he⟩ | ⟨hf, he⟩
      · rw [he]
      · simp at hf
  · intro n
    rcases create_shape x l t false with ⟨e, he⟩ | ⟨errs, hne, he⟩ |
      ⟨cmds, reg, blobs, hp, hb, hready, hd, herr, hfin⟩
    · rw [he]
      simp
    · rw [he]
      simp
    · rcases hfin with ⟨hf, he⟩ | ⟨hf, he⟩
      · rw [he]
        simp
      · simp at hf
  · intro cmds reg blobs hp hb hready hd herr
    have hcr : check_readiness reg = .ok () := by
      unfold check_readiness
      rw [hready]
      simp
    have hemp : ((reg.applyPatch (Patch.ofBlobs reg.schema blobs t reg.items)).1).isEmpty
        = true := by
      rw [herr]
      rfl
    simp [create, hp, hb, hcr, hd, hemp]

/-- Claim C10 witness: the worked example run without the apply flag
returns the patch command list and leaves the log untouched. -/
theorem C10_witness :
    (create exampleXsv exampleLog exampleTimestamp false).1
      = .patchOutput (Patch.ofBlobs exampleRegister.schema exampleBlobs
          exampleTimestamp exampleRegister.items).commands :=
  (C10_create_no_commit exampleXsv exampleLog exampleTimestamp).2.2.1
    [⟨"register", ["r", "key"]⟩, ⟨"add-field", ["key", "string", "1"]⟩,
     ⟨"add-field", ["name", "string", "1"]⟩]
    exampleRegister exampleBlobs (by rfl) (by rfl) (by rfl) (by rfl) (by rfl)
